import Mathlib

/-!
Shallow embedding of the rmt (remote magnetic tape) client from
paxlib/tarbuf.c, together with theorems about its wire codec, its
session/handle table and its public operations (rmt_open, rmt_read,
rmt_write, rmt_lseek, rmt_ioctl).

Transport model: bytes received from the remote helper are a `List Char`
consumed from the front; bytes sent to it are appended to an output
`List Char`.  `safe_read` is modelled as delivering bytes one at a time
(a legal behaviour of the kernel read used by the C code); writes into an
open pipe are modelled as succeeding in full, which is the environment
assumption under which the claims below are stated.
-/

namespace Tarbuf

/-- Errno value EIO, as used by the C code for protocol and transport
failures. -/
def EIO_errno : Int := 5

/-- Errno value ENOENT used for rejected file names. -/
def ENOENT_errno : Int := 2

/-- Errno value EMFILE used when the handle table is full. -/
def EMFILE_errno : Int := 24

/-- COMMAND_BUFFER_SIZE from tarbuf.c: size of the reply-line buffer. -/
def COMMAND_BUFFER_SIZE : Nat := 64

/-- One remote-tape session as seen through its byte streams: `input` is
the unread data coming from the remote helper, `output` the bytes sent to
it, `alive` records whether `_rmt_shutdown` has been applied, and `errno`
the thread-local errno variable. -/
structure Session where
  input : List Char
  output : List Char
  alive : Bool
  errno : Int
deriving Repr, DecidableEq

/-- The effect of `_rmt_shutdown` on a session: both pipe ends are closed
and errno is set. -/
def shutdownS (s : Session) (e : Int) : Session :=
  { s with alive := false, errno := e }

/-- `do_command`: transmit a command line to the remote helper.  The
underlying `full_write` is modelled as succeeding (open pipe). -/
def do_command (s : Session) (cmd : List Char) : Session :=
  { s with output := s.output ++ cmd }

/-- The reply-line read loop of `get_status_string`: take bytes one at a
time until a newline; the first argument is the remaining room in the
64-byte command buffer, checked before each read just as in the C loop.
Returns the line (newline stripped) and the unconsumed input, or `none`
if the buffer fills up or the stream ends first. -/
def readLine : List Char → Nat → Option (List Char × List Char)
  | _, 0 => none
  | [], _ + 1 => none
  | c :: rest, n + 1 =>
      if c = '\n' then some ([], rest)
      else
        match readLine rest n with
        | some (line, rem) => some (c :: line, rem)
        | none => none

/-- The error-message "skip" loop of `get_status_string`, exactly as in
the C source: `do { read one byte } while (byte == newline)`.  It
therefore consumes a (possibly empty) run of newlines plus one following
byte and stops at the first byte that is NOT a newline.  Returns the
unconsumed input, or `none` if a read fails. -/
def skipMessage : List Char → Option (List Char)
  | [] => none
  | c :: rest => if c = '\n' then skipMessage rest else some rest

/-- Whitespace test of C `isspace` in the POSIX locale, used by atoi. -/
def cIsSpace (c : Char) : Bool :=
  c = ' ' ∨ c = '\t' ∨ c = '\n' ∨ c = Char.ofNat 11 ∨ c = Char.ofNat 12 ∨
    c = '\r'

/-- Decimal-digit accumulator: consume leading digits, stop at the first
non-digit. -/
def digitsVal : List Char → Nat → Nat
  | [], acc => acc
  | c :: cs, acc =>
      if c.isDigit then digitsVal cs (10 * acc + (c.toNat - '0'.toNat))
      else acc

/-- C `atoi`/`atol` on a character list: skip whitespace, optional sign,
leading digits (zero if there are none). -/
def atoiC (s : List Char) : Int :=
  match s.dropWhile cIsSpace with
  | '-' :: rest => - (digitsVal rest 0 : Int)
  | '+' :: rest => (digitsVal rest 0 : Int)
  | s' => (digitsVal s' 0 : Int)

/-- C `strtoimax` as used by `get_status_off`: like `atoiC` but
reporting whether any digit was consumed (no digits means failure). -/
def strtoimaxC (s : List Char) : Option Int :=
  match s.dropWhile cIsSpace with
  | '-' :: rest => if rest.takeWhile Char.isDigit = [] then none
                   else some (- (digitsVal rest 0 : Int))
  | '+' :: rest => if rest.takeWhile Char.isDigit = [] then none
                   else some (digitsVal rest 0 : Int)
  | s' => if s'.takeWhile Char.isDigit = [] then none
          else some (digitsVal s' 0 : Int)

/-- `get_status_string` from tarbuf.c.  Reads the reply line (shutdown
with EIO on overflow or read failure), strips leading spaces, then
dispatches on the status letter: `A` returns the rest of the line; `E`
and `F` first run the message-skip loop, then decode the errno (values
at most zero become EIO), shutting down for `F`; anything else is a
desynchronised connection, shutdown with EIO. -/
def get_status_string (s : Session) : Option (List Char) × Session :=
  match readLine s.input COMMAND_BUFFER_SIZE with
  | none => (none, shutdownS s EIO_errno)
  | some (line, rest) =>
    let s1 := { s with input := rest }
    match line.dropWhile (· = ' ') with
    | [] => (none, shutdownS s1 EIO_errno)
    | c :: afterLetter =>
      if c = 'E' ∨ c = 'F' then
        match skipMessage s1.input with
        | none => (none, shutdownS s1 EIO_errno)
        | some rest2 =>
          let err := atoiC afterLetter
          let e := if err ≤ 0 then EIO_errno else err
          let s2 := { s1 with input := rest2, errno := e }
          if c = 'F' then (none, shutdownS s2 e) else (none, s2)
      else if c = 'A' then (some afterLetter, s1)
      else (none, shutdownS s1 EIO_errno)

/-- `get_status` from tarbuf.c: parse the `A` payload with atol; a
non-negative result is returned, a negative one yields -1 with errno set
to EIO (and no shutdown). -/
def get_status (s : Session) : Int × Session :=
  match get_status_string s with
  | (some st, s') =>
      let r := atoiC st
      if 0 ≤ r then (r, s') else (-1, { s' with errno := EIO_errno })
  | (none, s') => (-1, s')

/-- `get_status_off` from tarbuf.c: parse the `A` payload with
strtoimax; no digits (or, on a narrower platform, overflow) yields -1. -/
def get_status_off (s : Session) : Int × Session :=
  match get_status_string s with
  | (none, s') => (-1, s')
  | (some st, s') =>
      match strtoimaxC st with
      | none => (-1, s')
      | some v => (v, s')

/-- The payload read loop shared by `rmt_read` and the MTIOCGET branch of
`rmt_ioctl`: keep calling `safe_read` until the requested count arrives
(modelled byte-at-a-time).  Returns the bytes obtained, the leftover
input, and whether the full count was read; a read returning zero before
completion makes the flag false (the callers then shut down with EIO). -/
def readAvail : Nat → List Char → List Char × List Char × Bool
  | 0, input => ([], input, true)
  | _ + 1, [] => ([], [], false)
  | n + 1, c :: rest =>
      let (p, r, ok) := readAvail n rest
      (c :: p, r, ok)

/-- Command line "R<length>\n" or "W<length>\n" built by sprintf. -/
def natCmd (c : Char) (n : Nat) : List Char :=
  c :: (Nat.repr n).data ++ ['\n']

/-- `rmt_read` from tarbuf.c: send "R<length>\n", get the status, require
0 ≤ status ≤ length (else shutdown with EIO and return -1), then read
exactly that many payload bytes into the front of the buffer (short read:
shutdown with EIO and return -1).  Returns (return value, buffer,
session). -/
def rmt_read (s : Session) (buffer : List Char) (length : Nat) :
    Int × List Char × Session :=
  let s := do_command s (natCmd 'R' length)
  let (status, s1) := get_status s
  if 0 ≤ status ∧ status ≤ (length : Int) then
    let (p, rest, ok) := readAvail status.toNat s1.input
    let buffer' := p ++ buffer.drop p.length
    if ok then (status, buffer', { s1 with input := rest })
    else (-1, buffer', shutdownS { s1 with input := rest } EIO_errno)
  else (-1, buffer, shutdownS s1 EIO_errno)

/-- `rmt_write` from tarbuf.c: send "W<length>\n" and the payload (the
claim's premise is that both are transmitted in full, which is how the
transport is modelled), then read the status `r`: negative → return 0;
`r` equal to the length → return the length; otherwise record `r` bytes
written, shut down with EIO and return `r`. -/
def rmt_write (s : Session) (buffer : List Char) : Int × Session :=
  let len := buffer.length
  let s := do_command s (natCmd 'W' len)
  let s := { s with output := s.output ++ buffer }
  let (r, s1) := get_status s
  if r < 0 then (0, s1)
  else if r = (len : Int) then ((len : Int), s1)
  else (r, shutdownS s1 EIO_errno)

/-- SEEK_SET as on the reference platform. -/
def SEEK_SET : Int := 0

/-- SEEK_CUR as on the reference platform. -/
def SEEK_CUR : Int := 1

/-- SEEK_END as on the reference platform. -/
def SEEK_END : Int := 2

/-- The whence switch of `rmt_lseek`: SEEK_SET, SEEK_CUR and SEEK_END map
to the protocol integers 0, 1, 2; anything else hits `abort ()`,
modelled as `none`. -/
def whenceCode (whence : Int) : Option Int :=
  if whence = SEEK_SET then some 0
  else if whence = SEEK_CUR then some 1
  else if whence = SEEK_END then some 2
  else none

/-- Decimal rendering of an integer as sprintf %jd produces it. -/
def intChars (i : Int) : List Char := (toString i).data

/-- `rmt_lseek` from tarbuf.c: map whence (aborting the process on an
unknown value, modelled as `none`), send "L<w>\n<offset>\n", and return
the offset status. -/
def rmt_lseek (s : Session) (offset : Int) (whence : Int) :
    Option (Int × Session) :=
  match whenceCode whence with
  | none => none
  | some w =>
      let s := do_command s
        ('L' :: intChars w ++ '\n' :: intChars offset ++ ['\n'])
      some (get_status_off s)

/-- The byte-swap loop at the end of the MTIOCGET branch of `rmt_ioctl`:
every adjacent byte pair of the structure is exchanged. -/
def swapPairs : List Char → List Char
  | a :: b :: t => b :: a :: swapPairs t
  | l => l

/-- The MTIOCGET branch of `rmt_ioctl`, parameterised by the size of
`struct mtget` (even, per the static_assert in the source) and by the
function reading the designated check field (MTIO_CHECK_FIELD, normally
mt_type or mt_model) out of the received bytes.  Send "S" (no newline),
read the status; -1 propagates as a plain failure; a status different
from the structure size is a shutdown with EIO; then read exactly that
many bytes, and swap every adjacent byte pair iff the check field is at
least 256.  Returns (return value, caller's buffer, session). -/
def rmt_ioctl_get (s : Session) (sz : Nat) (checkField : List Char → Nat) :
    Int × List Char × Session :=
  let s := do_command s ['S']
  let (status, s1) := get_status s
  if status = -1 then (-1, [], s1)
  else if status ≠ (sz : Int) then (-1, [], shutdownS s1 EIO_errno)
  else
    let (p, rest, ok) := readAvail sz s1.input
    if ok then
      let s2 := { s1 with input := rest }
      if checkField p < 256 then (0, p, s2)
      else (0, swapPairs p, s2)
    else (-1, p, shutdownS { s1 with input := rest } EIO_errno)

/-! Open-flag constants.  The C code is compiled against the platform's
fcntl.h; this embedding instantiates the macros with the access modes at
their universal values 0, 1, 2 and every optional flag a distinct bit,
as on the reference platform. -/

/-- O_RDONLY. -/
def O_RDONLY : Nat := 0
/-- O_WRONLY. -/
def O_WRONLY : Nat := 1
/-- O_RDWR. -/
def O_RDWR : Nat := 2
/-- O_ACCMODE: mask of the access-mode bits. -/
def O_ACCMODE : Nat := 3
/-- O_CREAT. -/
def O_CREAT : Nat := 64
/-- O_EXCL. -/
def O_EXCL : Nat := 128
/-- O_NOCTTY. -/
def O_NOCTTY : Nat := 256
/-- O_TRUNC. -/
def O_TRUNC : Nat := 512
/-- O_APPEND. -/
def O_APPEND : Nat := 1024
/-- O_NONBLOCK. -/
def O_NONBLOCK : Nat := 2048
/-- O_DSYNC. -/
def O_DSYNC : Nat := 4096
/-- O_RSYNC. -/
def O_RSYNC : Nat := 8192
/-- O_SYNC. -/
def O_SYNC : Nat := 16384
/-- O_LARGEFILE. -/
def O_LARGEFILE : Nat := 32768

/-- The access-mode switch of `encode_oflags`: exactly one of O_RDONLY,
O_RDWR, O_WRONLY (in the source's case order); any other access mode
hits `abort ()`, modelled as `none`. -/
def accmodeName (oflags : Nat) : Option String :=
  let m := oflags &&& O_ACCMODE
  if m = O_RDONLY then some "O_RDONLY"
  else if m = O_RDWR then some "O_RDWR"
  else if m = O_WRONLY then some "O_WRONLY"
  else none

/-- The optional flags tested by `encode_oflags`, in the order of its
strcat chain. -/
def oflagTable : List (Nat × String) :=
  [(O_APPEND, "O_APPEND"), (O_CREAT, "O_CREAT"), (O_DSYNC, "O_DSYNC"),
   (O_EXCL, "O_EXCL"), (O_LARGEFILE, "O_LARGEFILE"),
   (O_NOCTTY, "O_NOCTTY"), (O_NONBLOCK, "O_NONBLOCK"),
   (O_RSYNC, "O_RSYNC"), (O_SYNC, "O_SYNC"), (O_TRUNC, "O_TRUNC")]

/-- The list of symbolic names emitted by `encode_oflags`: the access
mode first, then every optional flag present in `oflags`. -/
def oflagNames (oflags : Nat) : Option (List String) :=
  (accmodeName oflags).map fun acc =>
    acc :: (oflagTable.filter fun p => oflags &&& p.1 ≠ 0).map (·.2)

/-- `encode_oflags` from tarbuf.c: "%d " of the numeric flags, then the
symbolic names joined with a vertical bar. -/
def encode_oflags (oflags : Nat) : Option String :=
  (oflagNames oflags).map fun ns =>
    Nat.repr oflags ++ " " ++ String.intercalate "|" ns

/-- The "O" command line built by `rmt_open`: "O<file>\n" followed by the
encoded oflags and a final newline. -/
def openCommand (file : List Char) (oflags : Nat) : Option (List Char) :=
  (encode_oflags oflags).map fun enc => 'O' :: file ++ '\n' :: enc.data ++ ['\n']

/-- Numeric value of one symbolic open-flag name, for checking that the
symbolic form denotes the same flag set as the numeric form. -/
def oflagOfName (n : String) : Nat :=
  if n = "O_RDONLY" then O_RDONLY
  else if n = "O_RDWR" then O_RDWR
  else if n = "O_WRONLY" then O_WRONLY
  else
    match oflagTable.find? fun p => p.2 = n with
    | some p => p.1
    | none => 0

/-- Flag set denoted by a list of symbolic names. -/
def decodeNames (ns : List String) : Nat :=
  ns.foldl (fun a n => a ||| oflagOfName n) 0

/-- The union of all optional-flag bits in a table. -/
def tableBits (l : List (Nat × String)) : Nat :=
  l.foldr (fun p acc => p.1 ||| acc) 0

/-! The handle table: the `from_remote` and `to_remote` arrays of pipe
descriptors, MAXUNIT slots each initialised to the sentinel -1. -/

/-- MAXUNIT from tarbuf.c. -/
def MAXUNIT : Nat := 4

/-- The module-global state of the connection table: for each slot the
(PREAD, PWRITE) pair of `from_remote` and of `to_remote`, plus the
errno variable as rmt_open's error paths leave it. -/
structure RmtState where
  fromRemote : List (Int × Int)
  toRemote : List (Int × Int)
  rerrno : Int
deriving Repr, DecidableEq

/-- `read_side`: the parent's read descriptor of a slot
(`from_remote[handle][PREAD]`). -/
def read_side (st : RmtState) (h : Nat) : Int :=
  (st.fromRemote.getD h (-1, -1)).1

/-- `write_side`: the parent's write descriptor of a slot
(`to_remote[handle][PWRITE]`). -/
def write_side (st : RmtState) (h : Nat) : Int :=
  (st.toRemote.getD h (-1, -1)).2

/-- `_rmt_shutdown` at the table level: close both sides, reset
`from_remote[handle][PREAD]` and `to_remote[handle][PWRITE]` to the
sentinel, and set errno. -/
def rmt_shutdown_tbl (st : RmtState) (h : Nat) (e : Int) : RmtState :=
  { st with
      fromRemote := st.fromRemote.set h (-1, (st.fromRemote.getD h (-1, -1)).2),
      toRemote := st.toRemote.set h ((st.toRemote.getD h (-1, -1)).1, -1),
      rerrno := e }

/-- The slot scan at the top of `rmt_open`: first handle whose read and
write sides are both negative. -/
def findSlot (st : RmtState) : Option Nat :=
  (List.range MAXUNIT).find? fun h =>
    decide (read_side st h < 0) && decide (write_side st h < 0)

/-- The initial table: every descriptor is the sentinel. -/
def initialState : RmtState :=
  ⟨[(-1, -1), (-1, -1), (-1, -1), (-1, -1)],
   [(-1, -1), (-1, -1), (-1, -1), (-1, -1)], 0⟩

/-! The [user@]host:file scan of `rmt_open`.  The C code walks the
mutable copy once: a newline anywhere rejects the name; the first `@`
with no user yet records the user and moves the host start past it; the
first `:` records the file start; each split writes a NUL byte over the
separator.  The model tracks the start indices and the NUL positions and
then cuts the strings out of the original characters. -/

/-- One pass over the name: arguments are the remaining characters, the
index of the next character, the host start index, the user start index
(if any), the file start index (if any) and the indices overwritten with
NUL.  `none` models the ENOENT rejection of a newline. -/
def scanName : List Char → Nat → Nat → Option Nat → Option Nat →
    List Nat → Option (Nat × Option Nat × Option Nat × List Nat)
  | [], _, host, user, file, zeros => some (host, user, file, zeros)
  | c :: rest, i, host, user, file, zeros =>
      if c = '\n' then none
      else if c = '@' then
        match user with
        | none => scanName rest (i + 1) (i + 1) (some host) file (i :: zeros)
        | some _ => scanName rest (i + 1) host user file zeros
      else if c = ':' then
        match file with
        | none => scanName rest (i + 1) host user (some (i + 1)) (i :: zeros)
        | some _ => scanName rest (i + 1) host user file zeros
      else scanName rest (i + 1) host user file zeros

/-- The C string starting at index `start` of the NUL-spliced buffer:
characters from `start` up to the first NUL position. -/
def cStringFrom (s : List Char) (zeros : List Nat) (start : Nat) :
    List Char :=
  ((s.enum.drop start).takeWhile fun p => decide (p.1 ∉ zeros)).map (·.2)

/-- The decoded name: `none` is the newline rejection, otherwise the
optional user string, the host string and the optional file string. -/
def parseName (name : List Char) :
    Option (Option (List Char) × List Char × Option (List Char)) :=
  (scanName name 0 0 none none []).map fun r =>
    (r.2.1.map (cStringFrom name r.2.2.2),
     cStringFrom name r.2.2.2 r.1,
     r.2.2.1.map (cStringFrom name r.2.2.2))

/-- Outcome of `rmt_open`: a returned value together with the table it
leaves behind (errno in `rerrno`), or undefined behaviour from a failed
`assume`/`abort`. -/
inductive OpenResult
  | ret (v : Int) (st : RmtState)
  | undef
deriving Repr, DecidableEq

/-- Injected environment failures for `rmt_open`: everything succeeds,
or the first pipe call fails, or the second, or the fork. -/
inductive FailAt
  | allOk
  | pipeTo
  | pipeFrom
  | forkFail
deriving Repr, DecidableEq

/-- Projection of an `rmt_open` outcome: the returned value and table,
when the run was defined. -/
def openRet : OpenResult → Option (Int × RmtState)
  | .ret v st => some (v, st)
  | .undef => none

/-- The "O" exchange at the end of `rmt_open`: run the command against
the remote helper's reply; a -1 status shuts the slot down with the
decoded errno and returns -1, otherwise the biased handle is
returned. -/
def openExchange (st2 : RmtState) (h : Nat) (cmd reply : List Char)
    (bias : Int) : OpenResult :=
  let sess0 : Session :=
    { input := reply, output := [], alive := true, errno := st2.rerrno }
  let sess1 := do_command sess0 cmd
  let (status, sess2) := get_status sess1
  if status = -1 then .ret (-1) (rmt_shutdown_tbl st2 h sess2.errno)
  else .ret ((h : Int) + bias) { st2 with rerrno := sess2.errno }

/-- `rmt_open` from tarbuf.c (the fork/exec build, with a remote shell
configured).  Parameters beyond the C arguments describe the
environment: which system call fails (with errno `e`), the descriptor
pairs produced by the two pipe calls, and the remote helper's reply to
the "O" command.  Steps, in source order: find a free slot (EMFILE when
none); decode the name (ENOENT on a newline, `assume (remote_file)` when
there is no colon); create the to-remote pipe, the from-remote pipe and
the child, each failure closing what was created but leaving the table
entries as they are; then send the "O" command and read its status, a
failure shutting the slot down with the decoded errno. -/
def rmt_open_model (st : RmtState) (name : List Char) (oflags : Nat)
    (bias : Int) (failAt : FailAt) (e : Int) (fdT fdF : Int × Int)
    (reply : List Char) : OpenResult :=
  match findSlot st with
  | none => .ret (-1) { st with rerrno := EMFILE_errno }
  | some h =>
    match parseName name with
    | none => .ret (-1) { st with rerrno := ENOENT_errno }
    | some (_, _, none) => .undef
    | some (_, _, some file) =>
      if failAt = .pipeTo then .ret (-1) { st with rerrno := e }
      else
        let st1 := { st with toRemote := st.toRemote.set h fdT }
        if failAt = .pipeFrom then .ret (-1) { st1 with rerrno := e }
        else
          let st2 := { st1 with fromRemote := st1.fromRemote.set h fdF }
          if failAt = .forkFail then .ret (-1) { st2 with rerrno := e }
          else
            match openCommand file oflags with
            | none => .undef
            | some cmd => openExchange st2 h cmd reply bias

/-- The table left behind when an open fails while creating the
from-remote pipe: the to-remote descriptors remain recorded in slot 0
while the from-remote side is still the sentinel. -/
def pipeFailState : RmtState :=
  ⟨[(-1, -1), (-1, -1), (-1, -1), (-1, -1)],
   [(3, 4), (-1, -1), (-1, -1), (-1, -1)], 23⟩

end Tarbuf


namespace Tarbuf

theorem readLine_append (line rest : List Char) (n : Nat)
    (hnl : '\n' ∉ line) (hlen : line.length < n) :
    readLine (line ++ '\n' :: rest) n = some (line, rest) := by
  induction line generalizing n with
  | nil =>
    match n, hlen with
    | n + 1, _ => simp [readLine]
  | cons c cs ih =>
    match n, hlen with
    | n + 1, hlen =>
      simp only [List.mem_cons, not_or] at hnl
      have hrec := ih n hnl.2 (by simpa using Nat.lt_of_succ_lt_succ hlen)
      have hc : ¬ c = '\n' := fun hh => hnl.1 hh.symm
      simp [readLine, hc, hrec]

theorem get_status_string_A (sd rest out : List Char) (al : Bool) (e : Int)
    (hnl : '\n' ∉ sd) (hlen : sd.length ≤ 62) :
    get_status_string ⟨'A' :: (sd ++ '\n' :: rest), out, al, e⟩ =
      (some sd, ⟨rest, out, al, e⟩) := by
  have h1 : readLine ('A' :: (sd ++ '\n' :: rest)) COMMAND_BUFFER_SIZE =
      some ('A' :: sd, rest) := by
    have := readLine_append ('A' :: sd) rest COMMAND_BUFFER_SIZE
      (by simp [hnl]) (by simp [COMMAND_BUFFER_SIZE]; omega)
    simpa using this
  unfold get_status_string
  rw [show (⟨'A' :: (sd ++ '\n' :: rest), out, al, e⟩ : Session).input =
      'A' :: (sd ++ '\n' :: rest) from rfl, h1]
  simp [List.dropWhile]

theorem get_status_A (sd rest out : List Char) (al : Bool) (e : Int)
    (hnl : '\n' ∉ sd) (hlen : sd.length ≤ 62) :
    get_status ⟨'A' :: (sd ++ '\n' :: rest), out, al, e⟩ =
      if 0 ≤ atoiC sd then (atoiC sd, ⟨rest, out, al, e⟩)
      else (-1, ⟨rest, out, al, EIO_errno⟩) := by
  unfold get_status
  rw [get_status_string_A sd rest out al e hnl hlen]

theorem get_status_string_E (sd rest out : List Char) (al : Bool) (e : Int)
    (hnl : '\n' ∉ sd) (hlen : sd.length ≤ 62) :
    get_status_string ⟨'E' :: (sd ++ '\n' :: rest), out, al, e⟩ =
      match skipMessage rest with
      | none => (none, ⟨rest, out, false, EIO_errno⟩)
      | some rest2 =>
          (none, ⟨rest2, out, al,
            if atoiC sd ≤ 0 then EIO_errno else atoiC sd⟩) := by
  have h1 : readLine ('E' :: (sd ++ '\n' :: rest)) COMMAND_BUFFER_SIZE =
      some ('E' :: sd, rest) := by
    have := readLine_append ('E' :: sd) rest COMMAND_BUFFER_SIZE
      (by simp [hnl]) (by simp [COMMAND_BUFFER_SIZE]; omega)
    simpa using this
  unfold get_status_string
  rw [show (⟨'E' :: (sd ++ '\n' :: rest), out, al, e⟩ : Session).input =
      'E' :: (sd ++ '\n' :: rest) from rfl, h1]
  cases hsk : skipMessage rest with
  | none => simp [List.dropWhile, hsk, shutdownS]
  | some rest2 => simp [List.dropWhile, hsk]

theorem get_status_E_fst (sd rest out : List Char) (al : Bool) (e : Int)
    (hnl : '\n' ∉ sd) (hlen : sd.length ≤ 62) :
    (get_status ⟨'E' :: (sd ++ '\n' :: rest), out, al, e⟩).1 = -1 := by
  unfold get_status
  rw [get_status_string_E sd rest out al e hnl hlen]
  cases hsk : skipMessage rest <;> simp [hsk]

theorem rmt_read_fail (s : Session) (buffer : List Char) (N : Nat)
    (h : (get_status (do_command s (natCmd 'R' N))).1 = -1) :
    rmt_read s buffer N =
      (-1, buffer,
        shutdownS (get_status (do_command s (natCmd 'R' N))).2 EIO_errno) := by
  unfold rmt_read
  rcases hgs : get_status (do_command s (natCmd 'R' N)) with ⟨status, s1⟩
  rw [hgs] at h
  simp at h
  subst h
  simp [hgs]

end Tarbuf

namespace Tarbuf

/-- C1 (code bug): with the reply `E13` newline `Permission denied`
newline followed by further data, `get_status_string` decodes errno 13
but its message-skip loop consumes only the single byte P: the bytes
`ermission denied`, the newline and everything after them are left
unread in the stream, where the claim (and the source's own comment
"Skip the error message line") require the whole message line to be
consumed. -/
theorem get_status_string_message_not_consumed :
    get_status_string ⟨"E13\nPermission denied\nNEXT".data, [], true, 0⟩ =
      (none, ⟨"ermission denied\nNEXT".data, [], true, 13⟩) := by decide

/-- C3 (counterexample): on the reply `A-5` the claim says the session
is shut down; in the code `get_status` merely sets errno to EIO and
returns -1, and the session stays alive. -/
theorem get_status_negative_alive_cex :
    (get_status ⟨"A-5\n".data, [], true, 0⟩).1 = -1 ∧
    (get_status ⟨"A-5\n".data, [], true, 0⟩).2.alive = true ∧
    (get_status ⟨"A-5\n".data, [], true, 0⟩).2.errno = EIO_errno := by decide

/-- C3 (amended): when a status reply begins with `A` followed by a
negative signed decimal, `get_status` returns -1 with errno set to EIO
but performs no shutdown itself: the session's liveness is unchanged
(whether teardown happens is up to the caller). -/
theorem get_status_negative_no_shutdown (sd rest out : List Char)
    (al : Bool) (e : Int) (hnl : '\n' ∉ sd) (hlen : sd.length ≤ 62)
    (hneg : atoiC sd < 0) :
    get_status ⟨'A' :: (sd ++ '\n' :: rest), out, al, e⟩ =
      (-1, ⟨rest, out, al, EIO_errno⟩) := by
  rw [get_status_A sd rest out al e hnl hlen, if_neg (by omega)]

/-- Witness for the amended C3 at the concrete reply `A-7`. -/
theorem get_status_negative_no_shutdown_witness :
    get_status ⟨'A' :: ("-7".data ++ '\n' :: "tail".data), [], false, 9⟩ =
      (-1, ⟨"tail".data, [], false, EIO_errno⟩) :=
  get_status_negative_no_shutdown "-7".data "tail".data [] false 9
    (by decide) (by decide) (by decide)

/-- C9: an `E` reply to a read command does not surface the decoded peer
errno: the -1 from `get_status` fails the range check in `rmt_read`,
which shuts the session down and returns -1 with errno overwritten to
EIO, even though `E` is the recoverable reply variant. -/
theorem rmt_read_E_reply_shutdown (N : Nat) (buffer out : List Char)
    (e : Int) (sd more : List Char) (hnl : '\n' ∉ sd)
    (hlen : sd.length ≤ 62) :
    (rmt_read ⟨'E' :: (sd ++ '\n' :: more), out, true, e⟩ buffer N).1 = -1 ∧
    (rmt_read ⟨'E' :: (sd ++ '\n' :: more), out, true, e⟩ buffer N).2.1 =
      buffer ∧
    (rmt_read ⟨'E' :: (sd ++ '\n' :: more), out, true, e⟩
        buffer N).2.2.alive = false ∧
    (rmt_read ⟨'E' :: (sd ++ '\n' :: more), out, true, e⟩
        buffer N).2.2.errno = EIO_errno := by
  have hfail : (get_status (do_command
      (⟨'E' :: (sd ++ '\n' :: more), out, true, e⟩ : Session)
      (natCmd 'R' N))).1 = -1 :=
    get_status_E_fst sd more (out ++ natCmd 'R' N) true e hnl hlen
  rw [rmt_read_fail _ buffer N hfail]
  simp [shutdownS]

theorem readAvail_exact (data rest : List Char) :
    readAvail data.length (data ++ rest) = (data, rest, true) := by
  induction data with
  | nil => simp [readAvail]
  | cons c cs ih => simp [readAvail, ih]

theorem readAvail_short (n : Nat) (data : List Char) (h : data.length < n) :
    readAvail n data = (data, [], false) := by
  induction data generalizing n with
  | nil =>
    match n, h with
    | n + 1, _ => simp [readAvail]
  | cons c cs ih =>
    match n, h with
    | n + 1, h =>
      simp [readAvail, ih n (by simpa using Nat.lt_of_succ_lt_succ h)]

/-- C5: over a reply `A<k>` followed by the payload, `rmt_read` of `N`
bytes behaves as POSIX read: with `0 ≤ k ≤ N` and `k` payload bytes
available it returns `k` and places exactly those bytes at the start of
the buffer, leaving the session alive (in particular `k = 0` is a plain
EOF return of 0); a reported count outside `[0, N]` shuts the session
down with errno EIO and returns -1 with the buffer untouched; a payload
shorter than `k` likewise shuts down with EIO and returns -1. -/
theorem rmt_read_spec (N : Nat) (buffer out : List Char) (e : Int)
    (sd : List Char) (k : Int) (hnl : '\n' ∉ sd) (hlen : sd.length ≤ 62)
    (hk : atoiC sd = k) :
    (∀ payload rest, 0 ≤ k → k ≤ (N : Int) →
       (payload.length : Int) = k →
       rmt_read ⟨'A' :: (sd ++ '\n' :: (payload ++ rest)), out, true, e⟩
           buffer N =
         (k, payload ++ buffer.drop payload.length,
          ⟨rest, out ++ natCmd 'R' N, true, e⟩)) ∧
    (∀ inp, (k < 0 ∨ (N : Int) < k) →
       rmt_read ⟨'A' :: (sd ++ '\n' :: inp), out, true, e⟩ buffer N =
         (-1, buffer,
          ⟨inp, out ++ natCmd 'R' N, false, EIO_errno⟩)) ∧
    (∀ avail, 0 ≤ k → k ≤ (N : Int) → (avail.length : Int) < k →
       rmt_read ⟨'A' :: (sd ++ '\n' :: avail), out, true, e⟩ buffer N =
         (-1, avail ++ buffer.drop avail.length,
          ⟨[], out ++ natCmd 'R' N, false, EIO_errno⟩)) := by
  refine ⟨?_, ?_, ?_⟩
  · intro payload rest hk0 hkN hpl
    have hkn : k.toNat = payload.length := by omega
    unfold rmt_read
    dsimp only
    rw [show do_command
        ⟨'A' :: (sd ++ '\n' :: (payload ++ rest)), out, true, e⟩
        (natCmd 'R' N) =
      ⟨'A' :: (sd ++ '\n' :: (payload ++ rest)), out ++ natCmd 'R' N,
        true, e⟩ from rfl]
    rw [get_status_A sd (payload ++ rest) (out ++ natCmd 'R' N) true e
      hnl hlen, hk, if_pos hk0]
    simp only [if_pos (And.intro hk0 hkN), hkn, readAvail_exact]
    simp
  · intro inp hout
    unfold rmt_read
    dsimp only
    rw [show do_command ⟨'A' :: (sd ++ '\n' :: inp), out, true, e⟩
        (natCmd 'R' N) =
      ⟨'A' :: (sd ++ '\n' :: inp), out ++ natCmd 'R' N, true, e⟩ from rfl]
    rw [get_status_A sd inp (out ++ natCmd 'R' N) true e hnl hlen, hk]
    by_cases hk0 : 0 ≤ k
    · have hNk : (N : Int) < k := by omega
      rw [if_pos hk0]
      simp only [if_neg (by omega : ¬ (0 ≤ k ∧ k ≤ (N : Int))), shutdownS]
    · rw [if_neg hk0]
      simp only
      rw [if_neg (by omega : ¬ ((0 : Int) ≤ -1 ∧ (-1 : Int) ≤ (N : Int)))]
      simp [shutdownS]
  · intro avail hk0 hkN hshort
    have hkn : avail.length < k.toNat := by omega
    unfold rmt_read
    dsimp only
    rw [show do_command ⟨'A' :: (sd ++ '\n' :: avail), out, true, e⟩
        (natCmd 'R' N) =
      ⟨'A' :: (sd ++ '\n' :: avail), out ++ natCmd 'R' N, true, e⟩ from rfl]
    rw [get_status_A sd avail (out ++ natCmd 'R' N) true e hnl hlen, hk,
      if_pos hk0]
    simp only [if_pos (And.intro hk0 hkN), readAvail_short k.toNat avail hkn]
    simp [shutdownS]

/-- Witness for C5: reply `A2` with payload xy then z, request of 5
bytes into the buffer ABCDE; and the out-of-range reply `A9`; and the
short-payload case. -/
theorem rmt_read_spec_witness :
    rmt_read ⟨'A' :: ("2".data ++ '\n' :: ("xy".data ++ "z".data)),
        [], true, 0⟩ "ABCDE".data 5 =
      (2, "xy".data ++ "ABCDE".data.drop "xy".data.length,
       ⟨"z".data, [] ++ natCmd 'R' 5, true, 0⟩) ∧
    rmt_read ⟨'A' :: ("9".data ++ '\n' :: "ppp".data), [], true, 0⟩
        "ABCDE".data 5 =
      (-1, "ABCDE".data, ⟨"ppp".data, [] ++ natCmd 'R' 5, false,
        EIO_errno⟩) ∧
    rmt_read ⟨'A' :: ("4".data ++ '\n' :: "xy".data), [], true, 0⟩
        "ABCDE".data 5 =
      (-1, "xy".data ++ "ABCDE".data.drop "xy".data.length,
       ⟨[], [] ++ natCmd 'R' 5, false, EIO_errno⟩) :=
  ⟨(rmt_read_spec 5 "ABCDE".data [] 0 "2".data 2 (by decide) (by decide)
      (by decide)).1 "xy".data "z".data (by decide) (by decide) (by decide),
   (rmt_read_spec 5 "ABCDE".data [] 0 "9".data 9 (by decide) (by decide)
      (by decide)).2.1 "ppp".data (by decide),
   (rmt_read_spec 5 "ABCDE".data [] 0 "4".data 4 (by decide) (by decide)
      (by decide)).2.2 "xy".data (by decide) (by decide) (by decide)⟩

/-- C6: for `rmt_write` of the buffer (command line and payload
transmitted in full): a reply `A` carrying exactly the buffer length
returns that length with the session alive; a reply `A<m>` with
`0 ≤ m <` length returns `m` (the code then also records EIO and tears
the session down); a recoverable `E` reply whose decoded errno is
positive — such as `E13` followed by the message line — returns 0 with
errno set to the decoded value and the session still alive. -/
theorem rmt_write_spec (buf out : List Char) (e : Int) :
    (∀ sd rest, '\n' ∉ sd → sd.length ≤ 62 →
        atoiC sd = (buf.length : Int) →
        rmt_write ⟨'A' :: (sd ++ '\n' :: rest), out, true, e⟩ buf =
          ((buf.length : Int),
           ⟨rest, out ++ natCmd 'W' buf.length ++ buf, true, e⟩)) ∧
    (∀ sd rest (m : Nat), '\n' ∉ sd → sd.length ≤ 62 →
        atoiC sd = (m : Int) → m < buf.length →
        rmt_write ⟨'A' :: (sd ++ '\n' :: rest), out, true, e⟩ buf =
          ((m : Int),
           ⟨rest, out ++ natCmd 'W' buf.length ++ buf, false,
             EIO_errno⟩)) ∧
    (∀ ds c more, '\n' ∉ ds → ds.length ≤ 62 → 0 < atoiC ds →
        ¬ c = '\n' →
        rmt_write ⟨'E' :: (ds ++ '\n' :: (c :: more)), out, true, e⟩ buf =
          (0, ⟨more, out ++ natCmd 'W' buf.length ++ buf, true,
            atoiC ds⟩)) := by
  refine ⟨?_, ?_, ?_⟩
  · intro sd rest hnl hlen hk
    unfold rmt_write
    dsimp only
    rw [show { do_command ⟨'A' :: (sd ++ '\n' :: rest), out, true, e⟩
          (natCmd 'W' buf.length) with
        output := (do_command ⟨'A' :: (sd ++ '\n' :: rest), out, true, e⟩
          (natCmd 'W' buf.length)).output ++ buf } =
      (⟨'A' :: (sd ++ '\n' :: rest), out ++ natCmd 'W' buf.length ++ buf,
        true, e⟩ : Session) from by simp [do_command]]
    rw [get_status_A sd rest (out ++ natCmd 'W' buf.length ++ buf) true e
      hnl hlen, hk, if_pos (by omega : (0 : Int) ≤ (buf.length : Int))]
    simp
  · intro sd rest m hnl hlen hk hm
    unfold rmt_write
    dsimp only
    rw [show { do_command ⟨'A' :: (sd ++ '\n' :: rest), out, true, e⟩
          (natCmd 'W' buf.length) with
        output := (do_command ⟨'A' :: (sd ++ '\n' :: rest), out, true, e⟩
          (natCmd 'W' buf.length)).output ++ buf } =
      (⟨'A' :: (sd ++ '\n' :: rest), out ++ natCmd 'W' buf.length ++ buf,
        true, e⟩ : Session) from by simp [do_command]]
    rw [get_status_A sd rest (out ++ natCmd 'W' buf.length ++ buf) true e
      hnl hlen, hk, if_pos (by omega : (0 : Int) ≤ (m : Int))]
    simp only [if_neg (by omega : ¬ ((m : Int) < 0)),
      if_neg (by omega : ¬ ((m : Int) = (buf.length : Int))), shutdownS]
  · intro ds c more hnl hlen hpos hc
    unfold rmt_write
    dsimp only
    rw [show { do_command ⟨'E' :: (ds ++ '\n' :: (c :: more)), out, true, e⟩
          (natCmd 'W' buf.length) with
        output := (do_command
            ⟨'E' :: (ds ++ '\n' :: (c :: more)), out, true, e⟩
          (natCmd 'W' buf.length)).output ++ buf } =
      (⟨'E' :: (ds ++ '\n' :: (c :: more)),
        out ++ natCmd 'W' buf.length ++ buf, true, e⟩ : Session)
      from by simp [do_command]]
    unfold get_status
    rw [get_status_string_E ds (c :: more)
      (out ++ natCmd 'W' buf.length ++ buf) true e hnl hlen]
    rw [show skipMessage (c :: more) = some more from by
      simp [skipMessage, hc]]
    rw [if_neg (by omega : ¬ (atoiC ds ≤ 0))]
    simp

/-- Witness for C6: write of abc acknowledged in full; write of abc
acknowledged short as `A2`; write of ten bytes answered by `E13`
followed by the message Permission denied. -/
theorem rmt_write_spec_witness :
    rmt_write ⟨'A' :: ("3".data ++ '\n' :: []), [], true, 0⟩ "abc".data =
      (("abc".data.length : Int),
       ⟨[], [] ++ natCmd 'W' "abc".data.length ++ "abc".data, true, 0⟩) ∧
    rmt_write ⟨'A' :: ("2".data ++ '\n' :: "rest".data), [], true, 0⟩
        "abc".data =
      ((2 : Int),
       ⟨"rest".data, [] ++ natCmd 'W' "abc".data.length ++ "abc".data,
        false, EIO_errno⟩) ∧
    rmt_write ⟨'E' :: ("13".data ++ '\n' :: ('P' :: "ermission denied\n".data)),
        [], true, 0⟩ "0123456789".data =
      (0, ⟨"ermission denied\n".data,
        [] ++ natCmd 'W' "0123456789".data.length ++ "0123456789".data,
        true, atoiC "13".data⟩) :=
  ⟨(rmt_write_spec "abc".data [] 0).1 "3".data [] (by decide) (by decide)
      (by decide),
   (rmt_write_spec "abc".data [] 0).2.1 "2".data "rest".data 2 (by decide)
      (by decide) (by decide) (by decide),
   (rmt_write_spec "0123456789".data [] 0).2.2 "13".data 'P'
      "ermission denied\n".data (by decide) (by decide) (by decide)
      (by decide)⟩

/-- C7: for the MTIOCGET branch of `rmt_ioctl` (structure size even,
per the static_assert in the source): a non-negative reported count
different from the structure size shuts the session down with EIO and
returns -1; when the count equals the size, exactly that many bytes are
read into the caller's buffer, and every adjacent byte pair of the whole
structure is swapped if and only if the designated check field exceeds
255 — otherwise the buffer is exactly the bytes received; a payload
shorter than the size shuts down with EIO. -/
theorem rmt_ioctl_get_spec (sz : Nat) (cf : List Char → Nat)
    (out : List Char) (e : Int) (sd : List Char) (hsz : sz % 2 = 0)
    (hnl : '\n' ∉ sd) (hlen : sd.length ≤ 62) :
    (∀ (k : Nat) inp, atoiC sd = (k : Int) → k ≠ sz →
        rmt_ioctl_get ⟨'A' :: (sd ++ '\n' :: inp), out, true, e⟩ sz cf =
          (-1, [], ⟨inp, out ++ ['S'], false, EIO_errno⟩)) ∧
    (∀ data rest, atoiC sd = (sz : Int) → data.length = sz →
        cf data < 256 →
        rmt_ioctl_get ⟨'A' :: (sd ++ '\n' :: (data ++ rest)), out, true, e⟩
            sz cf =
          (0, data, ⟨rest, out ++ ['S'], true, e⟩)) ∧
    (∀ data rest, atoiC sd = (sz : Int) → data.length = sz →
        255 < cf data →
        rmt_ioctl_get ⟨'A' :: (sd ++ '\n' :: (data ++ rest)), out, true, e⟩
            sz cf =
          (0, swapPairs data, ⟨rest, out ++ ['S'], true, e⟩)) ∧
    (∀ data, atoiC sd = (sz : Int) → data.length < sz →
        rmt_ioctl_get ⟨'A' :: (sd ++ '\n' :: data), out, true, e⟩ sz cf =
          (-1, data, ⟨[], out ++ ['S'], false, EIO_errno⟩)) := by
  refine ⟨?_, ?_, ?_, ?_⟩
  · intro k inp hk hne
    unfold rmt_ioctl_get
    dsimp only
    rw [show do_command ⟨'A' :: (sd ++ '\n' :: inp), out, true, e⟩ ['S'] =
      ⟨'A' :: (sd ++ '\n' :: inp), out ++ ['S'], true, e⟩ from rfl]
    rw [get_status_A sd inp (out ++ ['S']) true e hnl hlen, hk,
      if_pos (by omega : (0 : Int) ≤ (k : Int))]
    simp only [if_neg (by omega : ¬ ((k : Int) = -1)),
      if_pos (by exact_mod_cast hne : (k : Int) ≠ (sz : Int)), shutdownS]
  · intro data rest hk hdl hcf
    unfold rmt_ioctl_get
    dsimp only
    rw [show do_command ⟨'A' :: (sd ++ '\n' :: (data ++ rest)), out, true,
        e⟩ ['S'] =
      ⟨'A' :: (sd ++ '\n' :: (data ++ rest)), out ++ ['S'], true, e⟩
      from rfl]
    rw [get_status_A sd (data ++ rest) (out ++ ['S']) true e hnl hlen, hk,
      if_pos (by omega : (0 : Int) ≤ (sz : Int))]
    simp only [if_neg (by omega : ¬ ((sz : Int) = -1)),
      if_neg (by omega : ¬ ((sz : Int) ≠ (sz : Int)))]
    rw [show sz = data.length from hdl.symm, readAvail_exact data rest]
    simp [hcf]
  · intro data rest hk hdl hcf
    unfold rmt_ioctl_get
    dsimp only
    rw [show do_command ⟨'A' :: (sd ++ '\n' :: (data ++ rest)), out, true,
        e⟩ ['S'] =
      ⟨'A' :: (sd ++ '\n' :: (data ++ rest)), out ++ ['S'], true, e⟩
      from rfl]
    rw [get_status_A sd (data ++ rest) (out ++ ['S']) true e hnl hlen, hk,
      if_pos (by omega : (0 : Int) ≤ (sz : Int))]
    simp only [if_neg (by omega : ¬ ((sz : Int) = -1)),
      if_neg (by omega : ¬ ((sz : Int) ≠ (sz : Int)))]
    rw [show sz = data.length from hdl.symm, readAvail_exact data rest]
    simp [if_neg (by omega : ¬ (cf data < 256))]
  · intro data hk hdl
    unfold rmt_ioctl_get
    dsimp only
    rw [show do_command ⟨'A' :: (sd ++ '\n' :: data), out, true, e⟩ ['S'] =
      ⟨'A' :: (sd ++ '\n' :: data), out ++ ['S'], true, e⟩ from rfl]
    rw [get_status_A sd data (out ++ ['S']) true e hnl hlen, hk,
      if_pos (by omega : (0 : Int) ≤ (sz : Int))]
    simp only [if_neg (by omega : ¬ ((sz : Int) = -1)),
      if_neg (by omega : ¬ ((sz : Int) ≠ (sz : Int)))]
    rw [readAvail_short sz data hdl]
    simp [shutdownS]

/-- Witness for C7 with a 4-byte status structure whose check field is
the code of the first byte: a mismatched count `A6`; a matched count
with a small check field (no swap); a matched count with a large check
field (every adjacent pair swapped); and a short payload. -/
theorem rmt_ioctl_get_spec_witness :
    rmt_ioctl_get ⟨'A' :: ("6".data ++ '\n' :: "wxyz".data), [], true, 0⟩
        4 (fun bs => (bs.headD 'a').toNat) =
      (-1, [], ⟨"wxyz".data, [] ++ ['S'], false, EIO_errno⟩) ∧
    rmt_ioctl_get ⟨'A' :: ("4".data ++ '\n' :: ("wxyz".data ++ "t".data)),
        [], true, 0⟩ 4 (fun bs => (bs.headD 'a').toNat) =
      (0, "wxyz".data, ⟨"t".data, [] ++ ['S'], true, 0⟩) ∧
    rmt_ioctl_get ⟨'A' :: ("4".data ++ '\n' ::
        ((Char.ofNat 300 :: "xyz".data) ++ "t".data)), [], true, 0⟩
        4 (fun bs => (bs.headD 'a').toNat) =
      (0, swapPairs (Char.ofNat 300 :: "xyz".data),
       ⟨"t".data, [] ++ ['S'], true, 0⟩) ∧
    rmt_ioctl_get ⟨'A' :: ("4".data ++ '\n' :: "wx".data), [], true, 0⟩
        4 (fun bs => (bs.headD 'a').toNat) =
      (-1, "wx".data, ⟨[], [] ++ ['S'], false, EIO_errno⟩) :=
  ⟨(rmt_ioctl_get_spec 4 (fun bs => (bs.headD 'a').toNat) [] 0 "6".data
      (by decide) (by decide) (by decide)).1 6 "wxyz".data (by decide)
      (by decide),
   (rmt_ioctl_get_spec 4 (fun bs => (bs.headD 'a').toNat) [] 0 "4".data
      (by decide) (by decide) (by decide)).2.1 "wxyz".data "t".data
      (by decide) (by decide) (by decide),
   (rmt_ioctl_get_spec 4 (fun bs => (bs.headD 'a').toNat) [] 0 "4".data
      (by decide) (by decide) (by decide)).2.2.1
      (Char.ofNat 300 :: "xyz".data) "t".data (by decide) (by decide)
      (by decide),
   (rmt_ioctl_get_spec 4 (fun bs => (bs.headD 'a').toNat) [] 0 "4".data
      (by decide) (by decide) (by decide)).2.2.2 "wx".data (by decide)
      (by decide)⟩

/-- C10: `rmt_lseek` with a whence outside SEEK_SET, SEEK_CUR, SEEK_END
hits `abort ()` (modelled as `none`) before anything reaches the wire;
for the three valid values the abort branch is unreachable and whence is
encoded on the wire as the protocol integers 0, 1 and 2 respectively. -/
theorem rmt_lseek_whence_spec (s : Session) (offset : Int) :
    (∀ whence : Int,
        ¬ (whence = SEEK_SET ∨ whence = SEEK_CUR ∨ whence = SEEK_END) →
        rmt_lseek s offset whence = none) ∧
    rmt_lseek s offset SEEK_SET =
      some (get_status_off (do_command s
        ('L' :: '0' :: '\n' :: intChars offset ++ ['\n']))) ∧
    rmt_lseek s offset SEEK_CUR =
      some (get_status_off (do_command s
        ('L' :: '1' :: '\n' :: intChars offset ++ ['\n']))) ∧
    rmt_lseek s offset SEEK_END =
      some (get_status_off (do_command s
        ('L' :: '2' :: '\n' :: intChars offset ++ ['\n']))) := by
  refine ⟨?_, rfl, rfl, rfl⟩
  intro w hw
  push_neg at hw
  simp only [SEEK_SET, SEEK_CUR, SEEK_END] at hw
  simp [rmt_lseek, whenceCode, SEEK_SET, SEEK_CUR, SEEK_END, hw.1,
    hw.2.1, hw.2.2]

/-- Witness for C10: whence 7 aborts; SEEK_END is encoded as 2. -/
theorem rmt_lseek_whence_spec_witness :
    rmt_lseek ⟨"A128\n".data, [], true, 0⟩ 100 7 = none ∧
    rmt_lseek ⟨"A128\n".data, [], true, 0⟩ 100 SEEK_END =
      some (get_status_off (do_command ⟨"A128\n".data, [], true, 0⟩
        ('L' :: '2' :: '\n' :: intChars 100 ++ ['\n']))) :=
  ⟨(rmt_lseek_whence_spec ⟨"A128\n".data, [], true, 0⟩ 100).1 7
      (by decide),
   (rmt_lseek_whence_spec ⟨"A128\n".data, [], true, 0⟩ 100).2.2.2⟩

theorem scanName_newline (cs : List Char) :
    ∀ i host user file zeros, '\n' ∈ cs →
      scanName cs i host user file zeros = none := by
  induction cs with
  | nil => intro i host user file zeros h; simp at h
  | cons c rest ih =>
    intro i host user file zeros h
    by_cases hc : c = '\n'
    · simp [scanName, hc]
    · have hr : '\n' ∈ rest := by
        rcases List.mem_cons.mp h with h1 | h1
        · exact absurd h1.symm hc
        · exact h1
      simp only [scanName, if_neg hc]
      by_cases h2 : c = '@'
      · simp only [if_pos h2]
        cases user <;> simp [ih _ _ _ _ _ hr]
      · simp only [if_neg h2]
        by_cases h3 : c = ':'
        · simp only [if_pos h3]
          cases file <;> simp [ih _ _ _ _ _ hr]
        · simp only [if_neg h3]
          exact ih _ _ _ _ _ hr

theorem scanName_no_colon (cs : List Char) :
    ∀ i host user file zeros, '\n' ∉ cs → ':' ∉ cs →
      ∃ hh uu zz, scanName cs i host user file zeros =
        some (hh, uu, file, zz) := by
  induction cs with
  | nil => intro i host user file zeros _ _; exact ⟨host, user, zeros, rfl⟩
  | cons c rest ih =>
    intro i host user file zeros hnl hcol
    simp only [List.mem_cons, not_or] at hnl hcol
    have hc : ¬ c = '\n' := fun h => hnl.1 h.symm
    have hc2 : ¬ c = ':' := fun h => hcol.1 h.symm
    simp only [scanName, if_neg hc, if_neg hc2]
    by_cases h2 : c = '@'
    · simp only [if_pos h2]
      cases user with
      | none => exact ih _ _ _ _ _ hnl.2 hcol.2
      | some u => exact ih _ _ _ _ _ hnl.2 hcol.2
    · simp only [if_neg h2]
      exact ih _ _ _ _ _ hnl.2 hcol.2

theorem parseName_newline (name : List Char) (h : '\n' ∈ name) :
    parseName name = none := by
  unfold parseName
  rw [scanName_newline name 0 0 none none [] h]
  rfl

theorem parseName_no_colon (name : List Char) (hnl : '\n' ∉ name)
    (hcol : ':' ∉ name) :
    ∃ u hst, parseName name = some (u, hst, none) := by
  obtain ⟨hh, uu, zz, hsc⟩ := scanName_no_colon name 0 0 none none []
    hnl hcol
  refine ⟨uu.map (cStringFrom name zz), cStringFrom name zz hh, ?_⟩
  unfold parseName
  rw [hsc]
  rfl

/-- C4 (counterexample): `rmt_open` on a file name with no colon does
not fail with ENOENT: the scan leaves the file component unset and the
code runs into `assume (remote_file)`, i.e. undefined behaviour, without
ever taking the ENOENT return. -/
theorem rmt_open_missing_colon_cex :
    rmt_open_model initialState "host/dev/tape".data 0 0 .allOk 0 (3, 4)
        (5, 6) [] = .undef ∧
    OpenResult.undef ≠
      OpenResult.ret (-1) { initialState with rerrno := ENOENT_errno } := by
  decide

/-- C4 (amended): `rmt_open` rejects a file name containing a newline
with -1 and errno ENOENT before any pipe is created or any child forked
(the table is returned untouched); a name without a colon, however, is
not rejected: the code merely assumes a colon is present
(`assume (remote_file)`), so the missing-file case is a precondition
violation, not an ENOENT failure. -/
theorem rmt_open_name_validation (st : RmtState) (name : List Char)
    (oflags : Nat) (bias e : Int) (failAt : FailAt) (fdT fdF : Int × Int)
    (reply : List Char) (hh : Nat) (hslot : findSlot st = some hh) :
    ('\n' ∈ name →
       rmt_open_model st name oflags bias failAt e fdT fdF reply =
         .ret (-1) { st with rerrno := ENOENT_errno }) ∧
    ('\n' ∉ name → ':' ∉ name →
       rmt_open_model st name oflags bias failAt e fdT fdF reply =
         .undef) := by
  constructor
  · intro hmem
    unfold rmt_open_model
    rw [hslot, parseName_newline name hmem]
  · intro hnl hcol
    obtain ⟨u, hst, hpn⟩ := parseName_no_colon name hnl hcol
    unfold rmt_open_model
    rw [hslot, hpn]

/-- Witness for the amended C4: a name with an embedded newline is
rejected with ENOENT and an untouched table; a colon-free name reaches
the assume. -/
theorem rmt_open_name_validation_witness :
    rmt_open_model initialState "ho\nst:/dev/tape".data 0 128 .allOk 0
        (3, 4) (5, 6) [] =
      .ret (-1) { initialState with rerrno := ENOENT_errno } ∧
    rmt_open_model initialState "hostfile".data 0 128 .allOk 0 (3, 4)
        (5, 6) [] = .undef :=
  ⟨(rmt_open_name_validation initialState "ho\nst:/dev/tape".data 0 128 0
      .allOk (3, 4) (5, 6) [] 0 (by decide)).1 (by decide),
   (rmt_open_name_validation initialState "hostfile".data 0 128 0 .allOk
      (3, 4) (5, 6) [] 0 (by decide)).2 (by decide) (by decide)⟩

theorem getD_set_self_pair (l : List (Int × Int)) (n : Nat)
    (v : Int × Int) :
    (l.set n v).getD n (-1, -1) =
      if n < l.length then v else (-1, -1) := by
  induction l generalizing n with
  | nil => simp [List.set]
  | cons a t ih =>
    cases n with
    | zero => simp [List.set]
    | succ m => simpa [List.set] using ih m

theorem get_status_fst_congr (i o o' : List Char) (a a' : Bool)
    (e e' : Int) :
    (get_status ⟨i, o, a, e⟩).1 = (get_status ⟨i, o', a', e'⟩).1 := by
  unfold get_status get_status_string
  cases hrl : readLine i COMMAND_BUFFER_SIZE with
  | none => simp
  | some lr =>
    obtain ⟨line, rest⟩ := lr
    simp only
    cases hdw : line.dropWhile (· = ' ') with
    | nil => simp
    | cons c afterLetter =>
      by_cases hef : c = 'E' ∨ c = 'F'
      · simp only [if_pos hef]
        cases hsk : skipMessage rest with
        | none => simp
        | some rest2 =>
          by_cases hcF : c = 'F' <;> simp [hcF]
      · simp only [if_neg hef]
        by_cases hA : c = 'A'
        · simp only [if_pos hA]
          by_cases h0 : 0 ≤ atoiC afterLetter <;> simp [h0]
        · simp [hA]

theorem openExchange_fail (st2 : RmtState) (h : Nat)
    (cmd reply : List Char) (bias : Int)
    (hfail : (get_status ⟨reply, [], true, 0⟩).1 = -1) :
    ∃ e', openExchange st2 h cmd reply bias =
      .ret (-1) (rmt_shutdown_tbl st2 h e') := by
  unfold openExchange
  dsimp only
  rcases hgs : get_status (do_command ⟨reply, [], true, st2.rerrno⟩ cmd)
    with ⟨status, sess2⟩
  have hm1 : status = -1 := by
    have hc := get_status_fst_congr reply ([] ++ cmd) [] true true
      st2.rerrno 0
    rw [show do_command ⟨reply, [], true, st2.rerrno⟩ cmd =
      ⟨reply, [] ++ cmd, true, st2.rerrno⟩ from rfl] at hgs
    rw [hgs] at hc
    simpa [hfail] using hc
  subst hm1
  simp [hgs]

/-- C2 (counterexample): an open that fails at the from-remote pipe
creation leaves the slot with a sentinel read side but a stale
non-sentinel write side — the endpoints are mixed, nothing is reset to
-1, and the next slot scan skips slot 0, so the slot is not reusable. -/
theorem rmt_open_pipe_failure_cex :
    rmt_open_model initialState "h:f".data 0 0 .pipeFrom 23 (3, 4) (5, 6)
        [] = .ret (-1) pipeFailState ∧
    read_side pipeFailState 0 = -1 ∧
    write_side pipeFailState 0 = 4 ∧
    ¬ (0 ≤ read_side pipeFailState 0 ↔ 0 ≤ write_side pipeFailState 0) ∧
    findSlot pipeFailState = some 1 := by decide

/-- C2 (amended): every teardown that goes through `_rmt_shutdown` —
close, protocol failures, and an open whose `O` exchange fails — resets
both the read and the write endpoint of the handle to the sentinel -1,
so the slot is free and reusable; an open that fails at the first
(to-remote) pipe creation leaves the table untouched, so its slot also
stays free; but an open that fails at the from-remote pipe creation
(the counterexample) or at fork does not reset the slot: the
descriptors already created stay recorded in the table, so with real
(non-negative) pipe descriptors the slot no longer passes the free-slot
scan. -/
theorem rmt_shutdown_resets_endpoints :
    (∀ st h e, read_side (rmt_shutdown_tbl st h e) h = -1 ∧
       write_side (rmt_shutdown_tbl st h e) h = -1) ∧
    (∀ st hh name u hst f oflags bias e fdT fdF reply,
       findSlot st = some hh →
       parseName name = some (u, hst, some f) →
       (encode_oflags oflags).isSome = true →
       (get_status ⟨reply, [], true, 0⟩).1 = -1 →
       (openRet (rmt_open_model st name oflags bias .allOk e fdT fdF
           reply)).map
           (fun p => (p.1, read_side p.2 hh, write_side p.2 hh)) =
         some (-1, -1, -1)) ∧
    (∀ st hh name u hst f oflags bias e fdT fdF reply,
       findSlot st = some hh →
       parseName name = some (u, hst, some f) →
       rmt_open_model st name oflags bias .pipeTo e fdT fdF reply =
         .ret (-1) { st with rerrno := e } ∧
       findSlot { st with rerrno := e } = some hh) ∧
    (∀ st hh name u hst f oflags bias e fdT fdF reply,
       findSlot st = some hh →
       parseName name = some (u, hst, some f) →
       hh < st.fromRemote.length → hh < st.toRemote.length →
       rmt_open_model st name oflags bias .forkFail e fdT fdF reply =
         .ret (-1) { st with
           fromRemote := st.fromRemote.set hh fdF,
           toRemote := st.toRemote.set hh fdT, rerrno := e } ∧
       read_side { st with
           fromRemote := st.fromRemote.set hh fdF,
           toRemote := st.toRemote.set hh fdT, rerrno := e } hh = fdF.1 ∧
       write_side { st with
           fromRemote := st.fromRemote.set hh fdF,
           toRemote := st.toRemote.set hh fdT, rerrno := e } hh = fdT.2 ∧
       (0 ≤ fdF.1 → 0 ≤ fdT.2 →
         ¬ (read_side { st with
              fromRemote := st.fromRemote.set hh fdF,
              toRemote := st.toRemote.set hh fdT, rerrno := e } hh < 0 ∧
            write_side { st with
              fromRemote := st.fromRemote.set hh fdF,
              toRemote := st.toRemote.set hh fdT, rerrno := e } hh
              < 0))) := by
  have hreset : ∀ st h e, read_side (rmt_shutdown_tbl st h e) h = -1 ∧
      write_side (rmt_shutdown_tbl st h e) h = -1 := by
    intro st h e
    constructor
    · unfold read_side rmt_shutdown_tbl
      rw [getD_set_self_pair]
      by_cases hlt : h < st.fromRemote.length <;> simp [hlt]
    · unfold write_side rmt_shutdown_tbl
      rw [getD_set_self_pair]
      by_cases hlt : h < st.toRemote.length <;> simp [hlt]
  have hpipeTo : ∀ (st : RmtState) (hh : Nat) (name : List Char)
      (u : Option (List Char)) (hst f : List Char) (oflags : Nat)
      (bias e : Int) (fdT fdF : Int × Int) (reply : List Char),
      findSlot st = some hh →
      parseName name = some (u, hst, some f) →
      rmt_open_model st name oflags bias .pipeTo e fdT fdF reply =
        .ret (-1) { st with rerrno := e } ∧
      findSlot { st with rerrno := e } = some hh := by
    intro st hh name u hst f oflags bias e fdT fdF reply hslot hpn
    constructor
    · unfold rmt_open_model
      rw [hslot, hpn]
      dsimp only
      rw [if_pos rfl]
    · rw [show findSlot { st with rerrno := e } = findSlot st from rfl]
      exact hslot
  have hfork : ∀ (st : RmtState) (hh : Nat) (name : List Char)
      (u : Option (List Char)) (hst f : List Char) (oflags : Nat)
      (bias e : Int) (fdT fdF : Int × Int) (reply : List Char),
      findSlot st = some hh →
      parseName name = some (u, hst, some f) →
      hh < st.fromRemote.length → hh < st.toRemote.length →
      rmt_open_model st name oflags bias .forkFail e fdT fdF reply =
        .ret (-1) { st with
          fromRemote := st.fromRemote.set hh fdF,
          toRemote := st.toRemote.set hh fdT, rerrno := e } ∧
      read_side { st with
          fromRemote := st.fromRemote.set hh fdF,
          toRemote := st.toRemote.set hh fdT, rerrno := e } hh = fdF.1 ∧
      write_side { st with
          fromRemote := st.fromRemote.set hh fdF,
          toRemote := st.toRemote.set hh fdT, rerrno := e } hh = fdT.2 ∧
      (0 ≤ fdF.1 → 0 ≤ fdT.2 →
        ¬ (read_side { st with
             fromRemote := st.fromRemote.set hh fdF,
             toRemote := st.toRemote.set hh fdT, rerrno := e } hh < 0 ∧
           write_side { st with
             fromRemote := st.fromRemote.set hh fdF,
             toRemote := st.toRemote.set hh fdT, rerrno := e } hh
             < 0)) := by
    intro st hh name u hst f oflags bias e fdT fdF reply hslot hpn
      hlen1 hlen2
    have hr : read_side { st with
        fromRemote := st.fromRemote.set hh fdF,
        toRemote := st.toRemote.set hh fdT, rerrno := e } hh = fdF.1 := by
      unfold read_side
      dsimp only
      rw [getD_set_self_pair, if_pos hlen1]
    have hw : write_side { st with
        fromRemote := st.fromRemote.set hh fdF,
        toRemote := st.toRemote.set hh fdT, rerrno := e } hh = fdT.2 := by
      unfold write_side
      dsimp only
      rw [getD_set_self_pair, if_pos hlen2]
    refine ⟨?_, hr, hw, ?_⟩
    · unfold rmt_open_model
      rw [hslot, hpn]
      dsimp only
      rw [if_neg (show ¬ FailAt.forkFail = FailAt.pipeTo from by decide),
        if_neg (show ¬ FailAt.forkFail = FailAt.pipeFrom from by decide),
        if_pos rfl]
    · intro h1 h2
      rw [hr, hw]
      omega
  refine ⟨hreset, ?_, hpipeTo, hfork⟩
  intro st hh name u hst f oflags bias e fdT fdF reply hslot hpn henc hfail
  obtain ⟨enc, henc'⟩ := Option.isSome_iff_exists.mp henc
  unfold rmt_open_model
  rw [hslot, hpn]
  dsimp only
  rw [show openCommand f oflags =
      some ('O' :: f ++ '\n' :: enc.data ++ ['\n']) from by
    simp [openCommand, henc']]
  simp only [if_neg (show ¬ FailAt.allOk = FailAt.pipeTo from by decide),
    if_neg (show ¬ FailAt.allOk = FailAt.pipeFrom from by decide),
    if_neg (show ¬ FailAt.allOk = FailAt.forkFail from by decide)]
  obtain ⟨errv, hoe⟩ := openExchange_fail _ hh
    ('O' :: f ++ '\n' :: enc.data ++ ['\n']) reply bias hfail
  rw [hoe]
  simp [openRet, (hreset _ hh errv).1, (hreset _ hh errv).2]

/-- Witness for the amended C2: shutting slot 2 down resets both sides;
an open whose `O` exchange gets the fatal reply `F5` returns -1 with
slot 0's endpoints both back at the sentinel; an open failing at the
to-remote pipe leaves the table untouched with slot 0 still free; and
an open failing at fork records the stale descriptors 5 and 4 in slot
0, which then fails the free-slot test. -/
theorem rmt_shutdown_resets_endpoints_witness :
    (read_side (rmt_shutdown_tbl initialState 2 7) 2 = -1 ∧
     write_side (rmt_shutdown_tbl initialState 2 7) 2 = -1) ∧
    ((openRet (rmt_open_model initialState "h:f".data 0 128 .allOk 0
        (3, 4) (5, 6) "F5\nIO error\n".data)).map
        (fun p => (p.1, read_side p.2 0, write_side p.2 0)) =
      some (-1, -1, -1)) ∧
    (rmt_open_model initialState "h:f".data 0 128 .pipeTo 23 (3, 4)
        (5, 6) [] = .ret (-1) { initialState with rerrno := 23 } ∧
     findSlot { initialState with rerrno := 23 } = some 0) ∧
    (rmt_open_model initialState "h:f".data 0 128 .forkFail 23 (3, 4)
        (5, 6) [] =
       .ret (-1) { initialState with
         fromRemote := initialState.fromRemote.set 0 (5, 6),
         toRemote := initialState.toRemote.set 0 (3, 4), rerrno := 23 } ∧
     read_side { initialState with
         fromRemote := initialState.fromRemote.set 0 (5, 6),
         toRemote := initialState.toRemote.set 0 (3, 4), rerrno := 23 }
       0 = 5 ∧
     write_side { initialState with
         fromRemote := initialState.fromRemote.set 0 (5, 6),
         toRemote := initialState.toRemote.set 0 (3, 4), rerrno := 23 }
       0 = 4 ∧
     (0 ≤ (5 : Int) → 0 ≤ (4 : Int) →
       ¬ (read_side { initialState with
            fromRemote := initialState.fromRemote.set 0 (5, 6),
            toRemote := initialState.toRemote.set 0 (3, 4), rerrno := 23 }
            0 < 0 ∧
          write_side { initialState with
            fromRemote := initialState.fromRemote.set 0 (5, 6),
            toRemote := initialState.toRemote.set 0 (3, 4), rerrno := 23 }
            0 < 0))) :=
  ⟨rmt_shutdown_resets_endpoints.1 initialState 2 7,
   rmt_shutdown_resets_endpoints.2.1 initialState 0 "h:f".data none
     "h".data "f".data 0 128 0 (3, 4) (5, 6) "F5\nIO error\n".data
     (by decide) (by decide) (by decide) (by decide),
   rmt_shutdown_resets_endpoints.2.2.1 initialState 0 "h:f".data none
     "h".data "f".data 0 128 23 (3, 4) (5, 6) [] (by decide) (by decide),
   rmt_shutdown_resets_endpoints.2.2.2 initialState 0 "h:f".data none
     "h".data "f".data 0 128 23 (3, 4) (5, 6) [] (by decide) (by decide)
     (by decide) (by decide)⟩

theorem single_bit_cases (x b i : Nat) (hb : b = 2 ^ i) :
    x &&& b = 0 ∨ x &&& b = b := by
  subst hb
  rw [Nat.and_two_pow]
  cases x.testBit i <;> simp

theorem and_or_absorb (x b c : Nat) (h : x &&& b = 0) :
    x &&& (b ||| c) = x &&& c := by
  apply Nat.eq_of_testBit_eq
  intro j
  have hb := congrArg (fun n => n.testBit j) h
  simp only [Nat.testBit_land, Nat.zero_testBit,
    Bool.and_eq_false_iff] at hb
  simp only [Nat.testBit_land, Nat.testBit_lor]
  rcases hb with hb | hb <;> simp [hb]

theorem and_or_pair (x b c : Nat) :
    (x &&& b) ||| (x &&& c) = x &&& (b ||| c) := by
  apply Nat.eq_of_testBit_eq
  intro j
  simp only [Nat.testBit_land, Nat.testBit_lor]
  cases x.testBit j <;> simp

theorem decode_filter_fold (l : List (Nat × String)) (x : Nat)
    (hl : ∀ p ∈ l, oflagOfName p.2 = p.1 ∧ ∃ i, p.1 = 2 ^ i) :
    ∀ a : Nat,
      ((l.filter fun p => decide (x &&& p.1 ≠ 0)).map (·.2)).foldl
          (fun acc n => acc ||| oflagOfName n) a
        = a ||| (x &&& tableBits l) := by
  induction l with
  | nil => intro a; simp [tableBits]
  | cons p l ih =>
    intro a
    obtain ⟨hdn, i, hbit⟩ := hl p (List.mem_cons_self p l)
    have hl' : ∀ q ∈ l, oflagOfName q.2 = q.1 ∧ ∃ j, q.1 = 2 ^ j :=
      fun q hq => hl q (List.mem_cons_of_mem p hq)
    have htb : tableBits (p :: l) = p.1 ||| tableBits l := rfl
    rcases single_bit_cases x p.1 i hbit with hx | hx
    · have hdec : (decide (x &&& p.1 ≠ 0)) = false := by simp [hx]
      rw [htb, and_or_absorb x p.1 (tableBits l) hx]
      simp only [List.filter_cons, hdec, Bool.false_eq_true, if_false]
      rw [ih hl' a]
    · have hne : x &&& p.1 ≠ 0 := by
        rw [hx, hbit]
        positivity
      have hdec : (decide (x &&& p.1 ≠ 0)) = true := by simp [hne]
      rw [htb]
      simp only [List.filter_cons, hdec, if_pos, List.map_cons,
        List.foldl_cons]
      rw [ih hl' (a ||| oflagOfName p.2), hdn, Nat.lor_assoc]
      conv_lhs => rw [← hx]
      rw [and_or_pair x p.1 (tableBits l)]

theorem oflagTable_sound :
    ∀ p ∈ oflagTable, oflagOfName p.2 = p.1 ∧ ∃ i, p.1 = 2 ^ i := by
  intro p hp
  simp only [oflagTable, List.mem_cons, List.not_mem_nil, or_false] at hp
  rcases hp with h | h | h | h | h | h | h | h | h | h <;> subst h
  · exact ⟨by decide, 10, by decide⟩
  · exact ⟨by decide, 6, by decide⟩
  · exact ⟨by decide, 12, by decide⟩
  · exact ⟨by decide, 7, by decide⟩
  · exact ⟨by decide, 15, by decide⟩
  · exact ⟨by decide, 8, by decide⟩
  · exact ⟨by decide, 11, by decide⟩
  · exact ⟨by decide, 13, by decide⟩
  · exact ⟨by decide, 14, by decide⟩
  · exact ⟨by decide, 9, by decide⟩

theorem decode_with_acc (oflags a : Nat)
    (ha : a = oflags &&& O_ACCMODE)
    (hmask : oflags &&& (O_ACCMODE ||| tableBits oflagTable) = oflags) :
    ((oflagTable.filter fun p => decide (oflags &&& p.1 ≠ 0)).map
        (·.2)).foldl (fun acc n => acc ||| oflagOfName n) a = oflags := by
  rw [decode_filter_fold oflagTable oflags oflagTable_sound a, ha,
    and_or_pair, hmask]

theorem countP_table_names (oflags : Nat) :
    ((oflagTable.filter fun p => decide (oflags &&& p.1 ≠ 0)).map
        (·.2)).countP
      (fun n => n == "O_RDONLY" || n == "O_RDWR" || n == "O_WRONLY")
      = 0 := by
  rw [List.countP_eq_zero]
  intro n hn
  obtain ⟨p, hp, rfl⟩ := List.mem_map.mp hn
  have hpt : p ∈ oflagTable := List.mem_of_mem_filter hp
  simp only [oflagTable, List.mem_cons, List.not_mem_nil, or_false] at hpt
  rcases hpt with h | h | h | h | h | h | h | h | h | h <;> subst h <;>
    decide

/-- C8: for every open-flags value drawn from the flags the encoder
handles (valid access mode, optional bits within the encoder's table),
the `O` command argument line carries the numeric flags value followed
by a symbolic form in which exactly one of O_RDONLY, O_RDWR, O_WRONLY
appears, absent flags are omitted, the names are joined with a vertical
bar, and the symbolic form denotes exactly the flag set of the numeric
form; e.g. O_RDONLY with file /dev/tape yields the wire bytes
`O/dev/tape` newline `0 O_RDONLY` newline. -/
theorem encode_oflags_spec (oflags : Nat)
    (hacc : oflags &&& O_ACCMODE ≠ 3)
    (hmask : oflags &&& (O_ACCMODE ||| tableBits oflagTable) = oflags) :
    (oflagNames oflags).isSome = true ∧
    ((oflagNames oflags).getD []).countP
      (fun n => n == "O_RDONLY" || n == "O_RDWR" || n == "O_WRONLY")
      = 1 ∧
    decodeNames ((oflagNames oflags).getD []) = oflags ∧
    encode_oflags oflags =
      some (Nat.repr oflags ++ " " ++
        String.intercalate "|" ((oflagNames oflags).getD [])) ∧
    ∀ file, openCommand file oflags =
      some ('O' :: file ++ '\n' ::
        (Nat.repr oflags ++ " " ++
          String.intercalate "|" ((oflagNames oflags).getD [])).data ++
        ['\n']) := by
  have hm : oflags &&& O_ACCMODE = 0 ∨ oflags &&& O_ACCMODE = 1 ∨
      oflags &&& O_ACCMODE = 2 := by
    have hle : oflags &&& O_ACCMODE ≤ O_ACCMODE := Nat.and_le_right
    unfold O_ACCMODE at hle hacc ⊢
    omega
  have main : ∀ acc : String, accmodeName oflags = some acc →
      oflagOfName acc = oflags &&& O_ACCMODE →
      (acc == "O_RDONLY" || acc == "O_RDWR" || acc == "O_WRONLY")
        = true →
      (oflagNames oflags).isSome = true ∧
      ((oflagNames oflags).getD []).countP
        (fun n => n == "O_RDONLY" || n == "O_RDWR" || n == "O_WRONLY")
        = 1 ∧
      decodeNames ((oflagNames oflags).getD []) = oflags ∧
      encode_oflags oflags =
        some (Nat.repr oflags ++ " " ++
          String.intercalate "|" ((oflagNames oflags).getD [])) ∧
      ∀ file, openCommand file oflags =
        some ('O' :: file ++ '\n' ::
          (Nat.repr oflags ++ " " ++
            String.intercalate "|" ((oflagNames oflags).getD [])).data ++
          ['\n']) := by
    intro acc haccm hval hpred
    have hnames : oflagNames oflags =
        some (acc ::
          (oflagTable.filter fun p => decide (oflags &&& p.1 ≠ 0)).map
            (·.2)) := by
      simp [oflagNames, haccm]
    refine ⟨by rw [hnames]; rfl, ?_, ?_, ?_, ?_⟩
    · rw [hnames]
      simp only [Option.getD_some, List.countP_cons, hpred,
        countP_table_names oflags, if_pos]
    · rw [hnames]
      simp only [Option.getD_some]
      unfold decodeNames
      rw [List.foldl_cons]
      exact decode_with_acc oflags (0 ||| oflagOfName acc)
        (by simp [hval]) hmask
    · rw [show encode_oflags oflags = (oflagNames oflags).map fun ns =>
        Nat.repr oflags ++ " " ++ String.intercalate "|" ns from rfl]
      rw [hnames]
      rfl
    · intro file
      rw [show openCommand file oflags = (encode_oflags oflags).map
        fun enc => 'O' :: file ++ '\n' :: enc.data ++ ['\n'] from rfl]
      rw [show encode_oflags oflags = (oflagNames oflags).map fun ns =>
        Nat.repr oflags ++ " " ++ String.intercalate "|" ns from rfl]
      rw [hnames]
      rfl
  rcases hm with h0 | h1 | h2
  · exact main "O_RDONLY"
      (by simp [accmodeName, h0, O_RDONLY, O_RDWR, O_WRONLY])
      (by rw [h0]; decide) (by decide)
  · exact main "O_WRONLY"
      (by simp [accmodeName, h1, O_RDONLY, O_RDWR, O_WRONLY])
      (by rw [h1]; decide) (by decide)
  · exact main "O_RDWR"
      (by simp [accmodeName, h2, O_RDONLY, O_RDWR, O_WRONLY])
      (by rw [h2]; decide) (by decide)

/-- Witness for C8 at the example of the claim: flags O_RDONLY (0) with
file /dev/tape, and additionally at O_RDWR with O_CREAT and O_TRUNC. -/
theorem encode_oflags_spec_witness :
    (Tarbuf.openCommand "/dev/tape".data 0 =
      some ('O' :: "/dev/tape".data ++ '\n' ::
        (Nat.repr 0 ++ " " ++
          String.intercalate "|" ((oflagNames 0).getD [])).data ++
        ['\n'])) ∧
    decodeNames ((oflagNames 0).getD []) = 0 ∧
    ((oflagNames 0).getD []).countP
      (fun n => n == "O_RDONLY" || n == "O_RDWR" || n == "O_WRONLY")
      = 1 ∧
    decodeNames ((oflagNames 578).getD []) = 578 ∧
    encode_oflags 578 =
      some (Nat.repr 578 ++ " " ++
        String.intercalate "|" ((oflagNames 578).getD [])) :=
  ⟨(encode_oflags_spec 0 (by decide) (by decide)).2.2.2.2 "/dev/tape".data,
   (encode_oflags_spec 0 (by decide) (by decide)).2.2.1,
   (encode_oflags_spec 0 (by decide) (by decide)).2.1,
   (encode_oflags_spec 578 (by decide) (by decide)).2.2.1,
   (encode_oflags_spec 578 (by decide) (by decide)).2.2.2.1⟩

/-- Witness for C9 at the reply `E13` newline `Permission denied`. -/
theorem rmt_read_E_reply_shutdown_witness :
    (rmt_read ⟨'E' :: ("13".data ++ '\n' :: "Permission denied\n".data),
        [], true, 0⟩ "ABCDE".data 5).1 = -1 ∧
    (rmt_read ⟨'E' :: ("13".data ++ '\n' :: "Permission denied\n".data),
        [], true, 0⟩ "ABCDE".data 5).2.1 = "ABCDE".data ∧
    (rmt_read ⟨'E' :: ("13".data ++ '\n' :: "Permission denied\n".data),
        [], true, 0⟩ "ABCDE".data 5).2.2.alive = false ∧
    (rmt_read ⟨'E' :: ("13".data ++ '\n' :: "Permission denied\n".data),
        [], true, 0⟩ "ABCDE".data 5).2.2.errno = EIO_errno :=
  rmt_read_E_reply_shutdown 5 "ABCDE".data [] 0 "13".data
    "Permission denied\n".data (by decide) (by decide)

end Tarbuf
